import Mathlib

/-!
Shallow embedding of `groups_sync.py`, a tool that syncs users from UW
Groups (a remote directory service) to local system groups, together with
proofs about its behaviour.

The environment-dependent pieces (the HTTPS fetch, the `getent` query and
the `gpasswd` subprocess calls) are modelled by explicit inputs: the JSON
`data` array of the Groups Web Service response (or the exception the
fetch raised), the raw standard output of `getent group <g>`, and a
function from member name to the subprocess result of the corresponding
`gpasswd` invocation.
-/

/-- One entry of the JSON `data` array returned by the Groups Web Service:
an object with a `type` field and an `id` field. -/
structure GwsMember where
  type : String
  id : String
deriving DecidableEq

/-- Boolean test for the regex character class `[a-z]` (ASCII range). -/
def isLowerAz (c : Char) : Bool :=
  decide ('a' ≤ c) && decide (c ≤ 'z')

/-- Boolean test for the regex character class `[a-z0-9]` (ASCII ranges). -/
def isLowerAzDigit (c : Char) : Bool :=
  isLowerAz c || (decide ('0' ≤ c) && decide (c ≤ '9'))

/-- Full match of the core pattern `[a-z][a-z0-9]{0,7}` against an entire
character list: one `[a-z]` character followed by at most seven
`[a-z0-9]` characters. -/
def matchesCore : List Char → Bool
  | [] => false
  | c :: rest => isLowerAz c && decide (rest.length ≤ 7) && rest.all isLowerAzDigit

/-- Model of Python `re.match("^[a-z][a-z0-9]{0,7}$", s)` viewed as a
Boolean (match object versus `None`).  In CPython, `$` matches at the end
of the string or just before a newline at the end of the string, so a
string consisting of the core pattern followed by one final newline also
matches (e.g. `"abc\n"`). -/
def reMatchNetid (s : String) : Bool :=
  matchesCore s.data ||
    (match s.data.getLast? with
     | some c => c == '\n' && matchesCore s.data.dropLast
     | none => false)

/-- Embedding of `get_uw_group_members` from `groups_sync.py`, applied to the parsed
JSON `data` array of the Groups Web Service response.  The loop appends
`member["id"]` for each entry whose `type` equals `"uwnetid"` and whose
`id` matches the personal NetID regex; the result is the list
`group_members` in order, duplicates retained. -/
def get_uw_group_members : List GwsMember → List String
  | [] => []
  | m :: rest =>
    if m.type == "uwnetid" && reMatchNetid m.id then
      m.id :: get_uw_group_members rest
    else
      get_uw_group_members rest

/-- Model of Python `str.strip()`: drop whitespace characters from both
ends of the character list. -/
def pyStrip (s : List Char) : List Char :=
  ((s.dropWhile Char.isWhitespace).reverse.dropWhile Char.isWhitespace).reverse

/-- Model of Python `str.split(sep)` for a one-character separator:
splitting the empty string yields `[""]`, and every occurrence of the
separator starts a new (possibly empty) field. -/
def pySplitChar (sep : Char) : List Char → List (List Char)
  | [] => [[]]
  | c :: rest =>
    let r := pySplitChar sep rest
    if c == sep then
      [] :: r
    else
      match r with
      | [] => [[c]]
      | h :: t => (c :: h) :: t

/-- Embedding of `get_local_group_members` from `groups_sync.py`, applied to the raw
standard output of `getent group <local_group>`.  The code runs
`r.stdout.strip().split(":")[3].split(",")`; if the record has fewer than
four colon-separated fields (e.g. `getent` found no group and printed
nothing) the index raises `IndexError`, which propagates to the caller
and is modelled as `Except.error`. -/
def get_local_group_members (stdout : String) : Except String (List String) :=
  match (pySplitChar ':' (pyStrip stdout.data)).get? 3 with
  | some field => .ok ((pySplitChar ',' field).map (fun cs => String.mk cs))
  | none => .error "IndexError: list index out of range"

/-- Result of one subprocess invocation (`subprocess.run` with
`capture_output=True, text=True`). -/
structure ProcResult where
  returncode : Int
  stdout : String
  stderr : String
deriving DecidableEq

/-- Embedding of `add_local_group_member` from `groups_sync.py`, applied to the result
of running `gpasswd -a <member> <local_group>`: returns `True` on a zero
exit code and raises an exception carrying the tool's standard error
otherwise. -/
def add_local_group_member (r : ProcResult) : Except String Bool :=
  if r.returncode = 0 then .ok true else .error r.stderr

/-- Embedding of `remove_local_group_member` from `groups_sync.py`, applied to the
result of running `gpasswd -d <member> <local_group>`: returns `True` on
a zero exit code and raises an exception carrying the tool's standard
error otherwise. -/
def remove_local_group_member (r : ProcResult) : Except String Bool :=
  if r.returncode = 0 then .ok true else .error r.stderr

/-- Model of Python `set(a) == set(b)` for two lists. -/
def pySetEq (a b : List String) : Bool :=
  a.all (fun x => b.contains x) && b.all (fun x => a.contains x)

/-- Observable outcome of one of the two mutation loops of `main` (the
add loop or the remove loop): the members for which a `gpasswd` call was
issued, in order; the members whose call failed and were logged with an
`ERROR:` line; and the counter of successful calls (`add_count`
respectively `remove_count`). -/
structure PhaseResult where
  attempted : List String
  errored : List String
  successCount : Nat
deriving DecidableEq

/-- One mutation loop of `main`: iterate over `candidates`, skip members
already in `other`, and for the rest run the mutation (`mutOp` applied to
the subprocess result `proc m`), counting successes and logging failures
without aborting the loop. -/
def run_phase (mutOp : ProcResult → Except String Bool) (proc : String → ProcResult)
    (other : List String) : List String → PhaseResult
  | [] => ⟨[], [], 0⟩
  | m :: rest =>
    let tail := run_phase mutOp proc other rest
    if other.contains m then
      tail
    else
      match mutOp (proc m) with
      | .ok _ => ⟨m :: tail.attempted, tail.errored, tail.successCount + 1⟩
      | .error _ => ⟨m :: tail.attempted, m :: tail.errored, tail.successCount⟩

/-- The environment of one configured group mapping as seen by one
iteration of `main`'s loop: the pair from `group_map`, the outcome of the
Groups Web Service fetch (the parsed `data` array, or the exception the
request/JSON step raised), the raw `getent` output, and the subprocess
results of the `gpasswd -a` / `gpasswd -d` invocations for each member. -/
structure MappingEnv where
  uw_group : String
  local_group : String
  fetchRemote : Except String (List GwsMember)
  getentStdout : String
  addProc : String → ProcResult
  removeProc : String → ProcResult

/-- One iteration of `main`'s loop over `group_map`, up to the summary
line: fetch the remote and local member lists (an exception in either is
`Except.error`, the path that prints `FATAL:` and exits), then, when the
two sets differ, run the add loop and the remove loop. -/
def sync_mapping (env : MappingEnv) : Except String (PhaseResult × PhaseResult) :=
  match env.fetchRemote with
  | .error e => .error e
  | .ok data =>
    match get_local_group_members env.getentStdout with
    | .error e => .error e
    | .ok localList =>
      let remote := get_uw_group_members data
      if pySetEq remote localList then
        .ok (⟨[], [], 0⟩, ⟨[], [], 0⟩)
      else
        .ok (run_phase add_local_group_member env.addProc localList remote,
             run_phase remove_local_group_member env.removeProc remote localList)

/-- Observable outcome of a whole run of `main`: the summary lines
`UWGROUP: .. LGROUP: .. ADD: .. REM: ..` in order (as tuples), the
`gpasswd -a` and `gpasswd -d` invocations issued across all mappings, the
`FATAL:` messages printed, and the process exit status. -/
structure RunResult where
  summaries : List (String × String × Nat × Nat)
  addAttempts : List String
  removeAttempts : List String
  fatalMsgs : List String
  exitCode : Nat
deriving DecidableEq

/-- Embedding of `main` from `groups_sync.py`, applied to the per-mapping environments
in `group_map` order.  A fetch/read exception prints `FATAL:` and calls
`sys.exit(1)`, so the remaining mappings are not processed and no summary
line is printed for the failing mapping; otherwise the mapping's summary
line reports the two success counters and processing continues.  Falling
off the end of the loop returns normally (exit status 0). -/
def main : List MappingEnv → RunResult
  | [] => ⟨[], [], [], [], 0⟩
  | env :: rest =>
    match sync_mapping env with
    | .error e => ⟨[], [], [], [e], 1⟩
    | .ok (addP, remP) =>
      let tail := main rest
      ⟨(env.uw_group, env.local_group, addP.successCount, remP.successCount) :: tail.summaries,
       addP.attempted ++ tail.addAttempts,
       remP.attempted ++ tail.removeAttempts,
       tail.fatalMsgs,
       tail.exitCode⟩

/-- Discriminator for `Except`: `true` exactly on `Except.ok`, i.e. the
mutation call returned instead of raising. -/
def exceptOk : Except String Bool → Bool
  | .ok _ => true
  | .error _ => false

/-- A subprocess oracle under which every `gpasswd` call exits with
status 0. -/
def procZero : String → ProcResult := fun _ => ⟨0, "", ""⟩

/-- Sample mapping whose remote and local member sets already agree. -/
def envOk : MappingEnv :=
  ⟨"u_ok", "lok", .ok [⟨"uwnetid", "alice"⟩], "lok:x:1002:alice", procZero, procZero⟩

/-- Sample mapping whose Groups Web Service fetch raised an exception. -/
def envFetchFail : MappingEnv :=
  ⟨"u_bad", "lbad", .error "connection refused", "lbad:x:1003:alice", procZero, procZero⟩

/-- Sample mapping whose local group record has an empty member field. -/
def envEmptyLocal : MappingEnv :=
  ⟨"u_emp", "lemp", .ok [⟨"uwnetid", "alice"⟩], "lemp:x:1004:", procZero, procZero⟩

/-- A subprocess oracle under which every `gpasswd` call exits with
status 1. -/
def procFail : String → ProcResult := fun m => ⟨1, "", "failure for " ++ m⟩

/-- Sample mapping whose sets differ and whose `gpasswd` calls all
fail. -/
def envMutFail : MappingEnv :=
  ⟨"u_mf", "lmf", .ok [⟨"uwnetid", "carol"⟩], "lmf:x:1005:bob", procFail, procFail⟩

/-! ## Helper lemmas -/

/-- For strings, `List.contains` agrees with list membership. -/
theorem contains_iff_mem {l : List String} {a : String} :
    l.contains a = true ↔ a ∈ l :=
  List.elem_iff

/-- For strings, `List.contains` returning `false` agrees with non-membership. -/
theorem contains_false_iff_not_mem {l : List String} {a : String} :
    l.contains a = false ↔ a ∉ l := by
  constructor
  · intro h hmem
    have hc : l.contains a = true := contains_iff_mem.mpr hmem
    rw [h] at hc
    exact Bool.false_ne_true hc
  · intro h
    cases hc : l.contains a
    · rfl
    · exact absurd (contains_iff_mem.mp hc) h

/-- The members for which a mutation loop issues a `gpasswd` call are
exactly the candidates that are not in the other list, in order and with
multiplicity, regardless of which calls fail. -/
theorem run_phase_attempted (mutOp : ProcResult → Except String Bool)
    (proc : String → ProcResult) (other : List String) (l : List String) :
    (run_phase mutOp proc other l).attempted
      = l.filter (fun m => !(other.contains m)) := by
  induction l with
  | nil => rfl
  | cons m rest ih =>
    simp only [run_phase, List.filter_cons]
    cases h : other.contains m
    · cases hm : mutOp (proc m) <;> simp [h, hm, ih]
    · simp [h, ih]

/-- The members a mutation loop logs an `ERROR:` line for are exactly the
attempted ones whose call raised. -/
theorem run_phase_errored (mutOp : ProcResult → Except String Bool)
    (proc : String → ProcResult) (other : List String) (l : List String) :
    (run_phase mutOp proc other l).errored
      = (l.filter (fun m => !(other.contains m))).filter
          (fun m => !(exceptOk (mutOp (proc m)))) := by
  induction l with
  | nil => rfl
  | cons m rest ih =>
    simp only [run_phase, List.filter_cons]
    cases h : other.contains m
    · cases hm : mutOp (proc m) <;> simp [h, hm, ih, exceptOk, List.filter_cons]
    · simp [h, ih]

/-- A mutation loop's success counter counts exactly the attempted
members whose call returned. -/
theorem run_phase_successCount (mutOp : ProcResult → Except String Bool)
    (proc : String → ProcResult) (other : List String) (l : List String) :
    (run_phase mutOp proc other l).successCount
      = ((l.filter (fun m => !(other.contains m))).filter
          (fun m => exceptOk (mutOp (proc m)))).length := by
  induction l with
  | nil => rfl
  | cons m rest ih =>
    simp only [run_phase, List.filter_cons]
    cases h : other.contains m
    · cases hm : mutOp (proc m) <;> simp [h, hm, ih, exceptOk, List.filter_cons]
    · simp [h, ih]

/-- The call `add_local_group_member` returns (rather than raises) exactly when
the subprocess exit code is zero. -/
theorem exceptOk_add (r : ProcResult) :
    exceptOk (add_local_group_member r) = decide (r.returncode = 0) := by
  unfold add_local_group_member
  by_cases h : r.returncode = 0 <;> simp [h, exceptOk]

/-- The call `remove_local_group_member` returns (rather than raises) exactly when
the subprocess exit code is zero. -/
theorem exceptOk_remove (r : ProcResult) :
    exceptOk (remove_local_group_member r) = decide (r.returncode = 0) := by
  unfold remove_local_group_member
  by_cases h : r.returncode = 0 <;> simp [h, exceptOk]

/-- Unfolding: `get_uw_group_members` is the filter of the `data` array by the
type/regex test, projected to the `id` field. -/
theorem get_uw_group_members_eq (data : List GwsMember) :
    get_uw_group_members data
      = (data.filter (fun m => m.type == "uwnetid" && reMatchNetid m.id)).map
          (fun m => m.id) := by
  induction data with
  | nil => rfl
  | cons m rest ih =>
    simp only [get_uw_group_members, List.filter_cons]
    by_cases h : (m.type == "uwnetid" && reMatchNetid m.id) = true
    · simp [h, ih]
    · simp [h, ih]

/-- Every member returned by `get_uw_group_members` matched the NetID
regex. -/
theorem mem_get_uw_matches {data : List GwsMember} {s : String}
    (h : s ∈ get_uw_group_members data) : reMatchNetid s = true := by
  rw [get_uw_group_members_eq] at h
  obtain ⟨e, he, rfl⟩ := List.mem_map.mp h
  have := (List.mem_filter.mp he).2
  exact (Bool.and_eq_true _ _ ▸ this).2

/-- Explicit characterisation of the Python regex match
`re.match("^[a-z][a-z0-9]{0,7}$", s)`: the whole string matches the core
pattern, or the string is the core pattern followed by one final
newline (CPython's `$` matches just before a trailing newline). -/
theorem reMatchNetid_iff (s : String) :
    reMatchNetid s = true ↔
      (matchesCore s.data = true ∨
        ∃ t, s.data = t ++ ['\n'] ∧ matchesCore t = true) := by
  unfold reMatchNetid
  rcases List.eq_nil_or_concat s.data with h | ⟨L, b, h⟩
  · rw [h]
    simp
  · rw [h, List.concat_eq_append, List.getLast?_concat, List.dropLast_concat]
    simp only [Bool.or_eq_true, Bool.and_eq_true, beq_iff_eq]
    constructor
    · rintro (hc | ⟨rfl, hL⟩)
      · exact Or.inl hc
      · exact Or.inr ⟨L, rfl, hL⟩
    · rintro (hc | ⟨t, ht, hL⟩)
      · exact Or.inl hc
      · have hlen : L.length = t.length := by
          have := congrArg List.length ht
          simpa using this
        obtain ⟨hLt, hb⟩ := List.append_inj ht hlen
        have hb' : b = '\n' := by injection hb
        subst hLt
        exact Or.inr ⟨hb', hL⟩

/-- Each occurrence of a valid `uwnetid` entry in the `data` array
contributes one occurrence of its `id` to the fetched member list:
duplicates are not collapsed. -/
theorem count_get_uw (data : List GwsMember) (e : GwsMember)
    (ht : e.type = "uwnetid") (hm : reMatchNetid e.id = true) :
    data.count e ≤ (get_uw_group_members data).count e.id := by
  induction data with
  | nil => simp
  | cons m rest ih =>
    rw [List.count_cons]
    by_cases hme : m = e
    · subst hme
      have hcond : (m.type == "uwnetid" && reMatchNetid m.id) = true := by
        simp [ht, hm]
      simp only [get_uw_group_members, hcond, if_true, List.count_cons]
      simp only [beq_self_eq_true, if_true]
      omega
    · have hbe : (m == e) = false := by simp [hme]
      simp only [hbe, Bool.false_eq_true, if_false, Nat.add_zero]
      unfold get_uw_group_members
      split
      · rw [List.count_cons]
        omega
      · omega

/-- When every mapping's fetch and read succeed, `main` falls off the end
of its loop and the process exit status is 0, whatever the `gpasswd`
calls did. -/
theorem main_exit_zero : ∀ envs : List MappingEnv,
    (∀ env ∈ envs, ∃ p, sync_mapping env = .ok p) → (main envs).exitCode = 0
  | [], _ => rfl
  | env :: rest, h => by
    obtain ⟨⟨addP, remP⟩, hp⟩ := h env (by simp)
    simp only [main, hp]
    exact main_exit_zero rest (fun e he => h e (by simp [he]))

/-- When the mappings before `bad` all fetch cleanly and `bad`'s fetch or
read raises, `main` processes exactly the prefix, prints one `FATAL:`
message, and exits with status 1; `bad` itself and the mappings after it
contribute no mutations and no summary line. -/
theorem main_fatal_abort :
    ∀ (pre : List MappingEnv) (bad : MappingEnv) (post : List MappingEnv) (msg : String),
    (∀ env ∈ pre, ∃ p, sync_mapping env = .ok p) →
    sync_mapping bad = .error msg →
    main (pre ++ bad :: post)
      = ⟨(main pre).summaries, (main pre).addAttempts, (main pre).removeAttempts,
         [msg], 1⟩
  | [], bad, post, msg, _, hbad => by
    simp [main, hbad]
  | env :: pre, bad, post, msg, h, hbad => by
    obtain ⟨⟨addP, remP⟩, hp⟩ := h env (by simp)
    have ih := main_fatal_abort pre bad post msg (fun e he => h e (by simp [he])) hbad
    simp [main, hp, ih]

/-! ## Claim theorems -/

/-- C1: the specification requires that a local group record with an
empty member field (fourth colon-delimited field) parse to an empty
member set, "not a one-element set containing the empty string".
Evaluating the code's parser on exactly such a record (`getent` output
`"mygroup:x:1001:"`) shows the code instead returns the one-element list
containing the empty string: `split(",")` of an empty field yields
`[""]` and the code never normalizes it. -/
theorem C1_empty_member_field_eval :
    get_local_group_members "mygroup:x:1001:" = .ok [""] := rfl

/-- C2 (counterexample): the claim says a fetch/read failure is logged as
fatal for that mapping and the driver proceeds to the next mapping.  In
the code the failure calls `sys.exit(1)`: with a failing first mapping
followed by a healthy second mapping the run emits no summary line at
all and exits 1, although the healthy mapping alone would have produced
its summary line — so the next mapping is not processed. -/
theorem C2_counterexample :
    main [envFetchFail, envOk] = ⟨[], [], [], ["connection refused"], 1⟩ ∧
    main [envOk] = ⟨[("u_ok", "lok", 0, 0)], [], [], [], 0⟩ := by
  constructor <;> rfl

/-- C2 (amended): for every mapping whose remote fetch or local read
fails, the driver logs a fatal error and attempts no mutation for that
mapping, but instead of proceeding to the next mapping it aborts the
whole process with exit status 1, so no further mapping is processed. -/
theorem C2_fetch_failure_aborts (env : MappingEnv) (rest : List MappingEnv)
    (msg : String) (h : sync_mapping env = .error msg) :
    main (env :: rest) = ⟨[], [], [], [msg], 1⟩ := by
  simp [main, h]

/-- Witness for the amended C2 at a concrete failing mapping. -/
theorem C2_fetch_failure_aborts_witness :
    main [envFetchFail, envOk] = ⟨[], [], [], ["connection refused"], 1⟩ :=
  C2_fetch_failure_aborts envFetchFail [envOk] "connection refused" rfl

/-- C3 (counterexample): the claim asserts that an id with a trailing
newline is excluded from the remote member set.  Python's `re.match`
with a `$` anchor also matches just before a final newline, so the entry
`{"type": "uwnetid", "id": "abc\n"}` is in fact included. -/
theorem C3_counterexample :
    reMatchNetid "abc\n" = true ∧
    get_uw_group_members [⟨"uwnetid", "abc\n"⟩] = ["abc\n"] := by
  constructor <;> rfl

/-- C3 (amended): an entry of the JSON `data` array contributes its id to
the remote member set if and only if its type equals `"uwnetid"` and its
id matches `^[a-z][a-z0-9]{0,7}$` under Python's semantics of `$`: the id
is one lowercase letter followed by at most seven lowercase letters or
digits, optionally followed by one final newline.  Uppercase letters and
any other stray characters are excluded; a single trailing newline is
not. -/
theorem C3_remote_inclusion_iff (data : List GwsMember) (s : String) :
    s ∈ get_uw_group_members data ↔
      ∃ e ∈ data, e.type = "uwnetid" ∧
        (matchesCore e.id.data = true ∨
          ∃ t, e.id.data = t ++ ['\n'] ∧ matchesCore t = true) ∧
        e.id = s := by
  rw [get_uw_group_members_eq]
  simp only [List.mem_map, List.mem_filter, Bool.and_eq_true, beq_iff_eq]
  constructor
  · rintro ⟨e, ⟨he, htype, hmatch⟩, rfl⟩
    exact ⟨e, he, htype, (reMatchNetid_iff e.id).mp hmatch, rfl⟩
  · rintro ⟨e, he, htype, hmatch, rfl⟩
    exact ⟨e, ⟨he, htype, (reMatchNetid_iff e.id).mpr hmatch⟩, rfl⟩

/-- Witness for the amended C3: the trailing-newline id is included via
the newline disjunct. -/
theorem C3_remote_inclusion_iff_witness :
    "abc\n" ∈ get_uw_group_members [⟨"uwnetid", "abc\n"⟩] :=
  (C3_remote_inclusion_iff [⟨"uwnetid", "abc\n"⟩] "abc\n").mpr
    ⟨⟨"uwnetid", "abc\n"⟩, by simp, rfl,
      Or.inr ⟨['a', 'b', 'c'], by decide, by decide⟩, rfl⟩

/-- C9: an `AddMember`/`RemoveMember` invocation succeeds exactly when
the `gpasswd` subprocess exit code is zero, and for every non-zero exit
code it fails with the tool's standard-error text as the error detail. -/
theorem C9_mutation_exit_codes (r : ProcResult) (s : String) :
    ((∃ b, add_local_group_member r = .ok b) ↔ r.returncode = 0) ∧
    (add_local_group_member r = .error s ↔ r.returncode ≠ 0 ∧ s = r.stderr) ∧
    ((∃ b, remove_local_group_member r = .ok b) ↔ r.returncode = 0) ∧
    (remove_local_group_member r = .error s ↔ r.returncode ≠ 0 ∧ s = r.stderr) := by
  unfold add_local_group_member remove_local_group_member
  by_cases h : r.returncode = 0 <;> simp [h, eq_comm]

/-- Witness for C9 at a concrete non-zero exit code. -/
theorem C9_mutation_exit_codes_witness :
    add_local_group_member ⟨1, "", "gpasswd: no such user"⟩
      = .error "gpasswd: no such user" :=
  ((C9_mutation_exit_codes ⟨1, "", "gpasswd: no such user"⟩
      "gpasswd: no such user").2.1).mpr ⟨by decide, rfl⟩

/-- C4 (counterexample): the claim says duplicates in the remote response
are collapsed and at most one AddMember call per distinct member is
issued.  A response listing the same valid id twice yields a two-element
list from the fetcher and two AddMember invocations from the driver. -/
theorem C4_counterexample :
    get_uw_group_members [⟨"uwnetid", "abc"⟩, ⟨"uwnetid", "abc"⟩] = ["abc", "abc"] ∧
    (run_phase add_local_group_member procZero []
        (get_uw_group_members [⟨"uwnetid", "abc"⟩, ⟨"uwnetid", "abc"⟩])).attempted
      = ["abc", "abc"] := by
  constructor <;> rfl

/-- C4 (amended): the fetcher returns a list in which duplicates are
retained, and the driver issues one AddMember call per occurrence: a
valid id occurring at least twice in the `data` array and absent from
the local list is attempted at least twice. -/
theorem C4_duplicates_retained (data : List GwsMember) (localList : List String)
    (proc : String → ProcResult) (e : GwsMember)
    (ht : e.type = "uwnetid") (hm : reMatchNetid e.id = true)
    (hl : localList.contains e.id = false) (hdup : 2 ≤ data.count e) :
    2 ≤ (get_uw_group_members data).count e.id ∧
    2 ≤ ((run_phase add_local_group_member proc localList
          (get_uw_group_members data)).attempted.count e.id) := by
  have h1 := count_get_uw data e ht hm
  have h2 : 2 ≤ (get_uw_group_members data).count e.id := le_trans hdup h1
  refine ⟨h2, ?_⟩
  have hnl : e.id ∉ localList := contains_false_iff_not_mem.mp hl
  rw [run_phase_attempted, List.count_filter (by simp [hnl])]
  exact h2

/-- Witness for the amended C4 at a concrete duplicated response. -/
theorem C4_duplicates_retained_witness :
    2 ≤ (get_uw_group_members [⟨"uwnetid", "abc"⟩, ⟨"uwnetid", "abc"⟩]).count "abc" ∧
    2 ≤ ((run_phase add_local_group_member procZero []
          (get_uw_group_members
            [⟨"uwnetid", "abc"⟩, ⟨"uwnetid", "abc"⟩])).attempted.count "abc") :=
  C4_duplicates_retained [⟨"uwnetid", "abc"⟩, ⟨"uwnetid", "abc"⟩] [] procZero
    ⟨"uwnetid", "abc"⟩ rfl (by decide) rfl (by decide)

/-- C5: the process exits non-zero if fetching members for any mapping
fails, aborting the run at the first such failure without processing the
remaining mappings, and exits zero otherwise, even when individual
member add/remove operations failed. -/
theorem C5_process_exit_status (envs : List MappingEnv) :
    ((∀ env ∈ envs, ∃ p, sync_mapping env = .ok p) → (main envs).exitCode = 0) ∧
    (∀ pre bad post msg, envs = pre ++ bad :: post →
      (∀ env ∈ pre, ∃ p, sync_mapping env = .ok p) →
      sync_mapping bad = .error msg →
      main envs = ⟨(main pre).summaries, (main pre).addAttempts,
                   (main pre).removeAttempts, [msg], 1⟩) := by
  refine ⟨main_exit_zero envs, ?_⟩
  rintro pre bad post msg rfl h1 h2
  exact main_fatal_abort pre bad post msg h1 h2

/-- Witness for C5: a run whose only mapping has failing mutations still
exits 0, and a run whose second mapping's fetch fails aborts after the
first mapping with exit status 1. -/
theorem C5_process_exit_status_witness :
    (main [envMutFail]).exitCode = 0 ∧
    main [envOk, envFetchFail]
      = ⟨(main [envOk]).summaries, (main [envOk]).addAttempts,
         (main [envOk]).removeAttempts, ["connection refused"], 1⟩ := by
  constructor
  · exact (C5_process_exit_status [envMutFail]).1 (by
      intro env he
      simp only [List.mem_singleton] at he
      subst he
      exact ⟨(⟨["carol"], ["carol"], 0⟩, ⟨["bob"], ["bob"], 0⟩), rfl⟩)
  · exact (C5_process_exit_status [envOk, envFetchFail]).2 [envOk] envFetchFail []
      "connection refused" rfl
      (by
        intro env he
        simp only [List.mem_singleton] at he
        subst he
        exact ⟨(⟨[], [], 0⟩, ⟨[], [], 0⟩), rfl⟩)
      rfl

/-- C6: for every pair of member lists, the set of members for which an
AddMember call is issued and the set for which a RemoveMember call is
issued are disjoint, and (local ∪ ToAdd) − ToRemove equals the remote
set, element by element. -/
theorem C6_delta_algebra (procA procR : String → ProcResult)
    (remote localList : List String) (x : String) :
    ¬ (x ∈ (run_phase add_local_group_member procA localList remote).attempted ∧
        x ∈ (run_phase remove_local_group_member procR remote localList).attempted) ∧
    (((x ∈ localList ∨
        x ∈ (run_phase add_local_group_member procA localList remote).attempted) ∧
        x ∉ (run_phase remove_local_group_member procR remote localList).attempted) ↔
      x ∈ remote) := by
  rw [run_phase_attempted, run_phase_attempted]
  simp only [List.mem_filter, Bool.not_eq_true', contains_false_iff_not_mem]
  constructor
  · rintro ⟨⟨hxr, hnl⟩, hxl, hnr⟩
    exact hnr hxr
  · constructor
    · rintro ⟨hor, hnot⟩
      rcases hor with hxl | ⟨hxr, _⟩
      · by_contra hxr
        exact hnot ⟨hxl, hxr⟩
      · exact hxr
    · intro hxr
      by_cases hxl : x ∈ localList
      · exact ⟨Or.inl hxl, fun h => h.2 hxr⟩
      · exact ⟨Or.inr ⟨hxr, hxl⟩, fun h => hxl h.1⟩

/-- Witness for C6 at the spec's example pair of member lists. -/
theorem C6_delta_algebra_witness :
    ¬ ("carol" ∈ (run_phase add_local_group_member procZero ["alice", "bob"]
          ["alice", "carol"]).attempted ∧
        "carol" ∈ (run_phase remove_local_group_member procZero ["alice", "carol"]
          ["alice", "bob"]).attempted) ∧
    ((("carol" ∈ ["alice", "bob"] ∨
        "carol" ∈ (run_phase add_local_group_member procZero ["alice", "bob"]
          ["alice", "carol"]).attempted) ∧
        "carol" ∉ (run_phase remove_local_group_member procZero ["alice", "carol"]
          ["alice", "bob"]).attempted) ↔
      "carol" ∈ ["alice", "carol"]) :=
  C6_delta_algebra procZero procZero ["alice", "carol"] ["alice", "bob"] "carol"

/-- C7: each mutation loop attempts every member of its delta regardless
of failures, the error log lists exactly the failing members (identified
by name), and the counters that feed the summary line count exactly the
successful calls. -/
theorem C7_mutation_failure_isolation (procA procR : String → ProcResult)
    (remote localList : List String) :
    (run_phase add_local_group_member procA localList remote).attempted
        = remote.filter (fun m => !(localList.contains m)) ∧
    (run_phase add_local_group_member procA localList remote).errored
        = (remote.filter (fun m => !(localList.contains m))).filter
            (fun m => !(decide ((procA m).returncode = 0))) ∧
    (run_phase add_local_group_member procA localList remote).successCount
        = ((remote.filter (fun m => !(localList.contains m))).filter
            (fun m => decide ((procA m).returncode = 0))).length ∧
    (run_phase remove_local_group_member procR remote localList).attempted
        = localList.filter (fun m => !(remote.contains m)) ∧
    (run_phase remove_local_group_member procR remote localList).errored
        = (localList.filter (fun m => !(remote.contains m))).filter
            (fun m => !(decide ((procR m).returncode = 0))) ∧
    (run_phase remove_local_group_member procR remote localList).successCount
        = ((localList.filter (fun m => !(remote.contains m))).filter
            (fun m => decide ((procR m).returncode = 0))).length := by
  refine ⟨run_phase_attempted _ _ _ _, ?_, ?_, run_phase_attempted _ _ _ _, ?_, ?_⟩
  · rw [run_phase_errored]
    congr 1
    funext m
    rw [exceptOk_add]
  · rw [run_phase_successCount]
    congr 2
    funext m
    rw [exceptOk_add]
  · rw [run_phase_errored]
    congr 1
    funext m
    rw [exceptOk_remove]
  · rw [run_phase_successCount]
    congr 2
    funext m
    rw [exceptOk_remove]

/-- C8: for a mapping whose fetched remote member set equals the parsed
local member set, zero AddMember and zero RemoveMember calls are issued,
yet the summary line is still emitted, with counts ADD: 0 REM: 0. -/
theorem C8_equal_sets_no_mutation (env : MappingEnv) (rest : List MappingEnv)
    (data : List GwsMember) (l : List String)
    (h1 : env.fetchRemote = .ok data)
    (h2 : get_local_group_members env.getentStdout = .ok l)
    (h3 : pySetEq (get_uw_group_members data) l = true) :
    sync_mapping env = .ok (⟨[], [], 0⟩, ⟨[], [], 0⟩) ∧
    main (env :: rest)
      = ⟨(env.uw_group, env.local_group, 0, 0) :: (main rest).summaries,
         (main rest).addAttempts, (main rest).removeAttempts,
         (main rest).fatalMsgs, (main rest).exitCode⟩ := by
  have hs : sync_mapping env = .ok (⟨[], [], 0⟩, ⟨[], [], 0⟩) := by
    simp only [sync_mapping, h1, h2, h3, if_true]
  exact ⟨hs, by simp [main, hs]⟩

/-- Witness for C8 at a concrete already-synchronized mapping. -/
theorem C8_equal_sets_no_mutation_witness :
    sync_mapping envOk = .ok (⟨[], [], 0⟩, ⟨[], [], 0⟩) ∧
    main [envOk] = ⟨[("u_ok", "lok", 0, 0)], [], [], [], 0⟩ := by
  have h := C8_equal_sets_no_mutation envOk [] [⟨"uwnetid", "alice"⟩] ["alice"]
    rfl rfl rfl
  refine ⟨h.1, ?_⟩
  rw [h.2]
  rfl

/-- C10: for a mapping whose local group record has an empty member
field, the parsed local list is `[""]`; the empty string never matches
the NetID regex, so it cannot be in the remote member list, the two sets
necessarily differ, and the driver issues a RemoveMember call with the
empty string as the member argument. -/
theorem C10_empty_string_removal (env : MappingEnv) (rest : List MappingEnv)
    (data : List GwsMember)
    (h1 : env.fetchRemote = .ok data)
    (h2 : (pySplitChar ':' (pyStrip env.getentStdout.data)).get? 3 = some []) :
    ∃ addP remP, sync_mapping env = .ok (addP, remP) ∧
      "" ∈ remP.attempted ∧ "" ∈ (main (env :: rest)).removeAttempts := by
  have hloc : get_local_group_members env.getentStdout = .ok [""] := by
    simp only [get_local_group_members, h2]
    rfl
  have hnm : "" ∉ get_uw_group_members data := by
    intro hmem
    have hmatch := mem_get_uw_matches hmem
    have hfalse : reMatchNetid "" = false := rfl
    rw [hfalse] at hmatch
    exact Bool.false_ne_true hmatch
  have hcf : (get_uw_group_members data).contains "" = false :=
    contains_false_iff_not_mem.mpr hnm
  have hb : ([""].all fun x => (get_uw_group_members data).contains x) = false := by
    simp only [List.all_cons, List.all_nil, Bool.and_true]
    exact hcf
  have hne : pySetEq (get_uw_group_members data) [""] = false := by
    unfold pySetEq
    rw [hb, Bool.and_false]
  have hsync : sync_mapping env
      = .ok (run_phase add_local_group_member env.addProc [""]
               (get_uw_group_members data),
             run_phase remove_local_group_member env.removeProc
               (get_uw_group_members data) [""]) := by
    simp only [sync_mapping, h1, hloc, hne, Bool.false_eq_true, if_false]
  refine ⟨_, _, hsync, ?_, ?_⟩
  · rw [run_phase_attempted]
    simp only [List.filter_cons, List.filter_nil]
    simp [hcf]
    exact hnm
  · simp only [main, hsync]
    rw [run_phase_attempted]
    simp [hcf]
    exact Or.inl hnm

/-- Witness for C10 at a concrete mapping with an empty local member
field. -/
theorem C10_empty_string_removal_witness :
    ∃ addP remP, sync_mapping envEmptyLocal = .ok (addP, remP) ∧
      "" ∈ remP.attempted ∧ "" ∈ (main [envEmptyLocal]).removeAttempts :=
  C10_empty_string_removal envEmptyLocal [] [⟨"uwnetid", "alice"⟩] rfl rfl
